import Mathlib

/-
Verification development for the x86-64-to-WASM transpiler prototype
(`src/transpiler_real.rs`, `src/minimal_transpile.rs`, `src/transpiler.rs`).
Rust machine integers that matter for the claims (`u32` immediates, `i64`
WASM values, `u64` addresses and sizes) are modelled as `Nat`/`Int`, with
explicit wrap-around (`wrap64`) where 64-bit arithmetic overflow matters.
Rust `HashMap`/`HashSet` values are modelled as association lists / lists
with membership-respecting insertion; `Result<_, Box<dyn Error>>` is
modelled as `Except String _` carrying the exact error strings of the
source.
-/

namespace SelfServe

/-- Subset of `iced_x86::Register` actually mentioned by the source, plus a
catch-all constructor for every other register code. `noneR` is
`Register::None` (the memory base of non-memory operands). -/
inductive Register where
  | rax | rbx | rcx | rdx | rsi | rdi | rbp | rsp
  | eax | ebx | ecx | edx | esi | edi
  | noneR
  | otherReg (code : Nat)
deriving DecidableEq

/-- Subset of `iced_x86::Mnemonic` matched by `translate_instruction` and
the CFG builder, plus a catch-all for every other mnemonic and the
INVALID code that the iced decoder produces on undecodable bytes. -/
inductive Mnemonic where
  | mov | add | sub | imul | cmp | test
  | je | jne | jg | jl | jge | jle | ja | jb
  | jmp | call | ret | push | pop | lea
  | invalid
  | otherMnemonic (code : Nat)
deriving DecidableEq

/-- Subset of `iced_x86::OpKind` matched by the source. -/
inductive OpKind where
  | register | immediate32 | memory
  | otherKind (code : Nat)
deriving DecidableEq

/-- The fields of `iced_x86::Instruction` read by the source: mnemonic,
operand kinds/registers, memory base + displacement, 32-bit immediate
(as the `u32` value), and the near-branch data used by the CFG builder. -/
structure Instruction where
  mnemonic : Mnemonic
  op0_kind : OpKind
  op1_kind : OpKind
  op0_register : Register
  op1_register : Register
  memory_base : Register
  memory_displacement : Nat
  immediate32 : Nat
  is_jmp_short_or_near : Bool
  near_branch_target : Nat
deriving DecidableEq

/-- A default instruction (all fields zeroed), used to build concrete
instructions by record update. -/
def instr0 : Instruction :=
  { mnemonic := Mnemonic.otherMnemonic 0
    op0_kind := OpKind.otherKind 0
    op1_kind := OpKind.otherKind 0
    op0_register := Register.noneR
    op1_register := Register.noneR
    memory_base := Register.noneR
    memory_displacement := 0
    immediate32 := 0
    is_jmp_short_or_near := false
    near_branch_target := 0 }

/-- The `wasm_encoder::Instruction` constructors emitted by the source
(`transpiler_real.rs` emits the i64 family; `transpiler.rs` also emits the
i32 family). `MemArg` is flattened to its offset and alignment; the source
always uses `memory_index: 0`. -/
inductive WasmInstr where
  | localGet (idx : Nat)
  | localSet (idx : Nat)
  | i64Const (v : Int)
  | i64Add | i64Sub | i64Mul | i64And
  | i64Load (offset : Nat) (align : Nat)
  | i64Store (offset : Nat) (align : Nat)
  | i32Const (v : Int)
  | i32Add | i32Sub
  | ret
  | endOp
deriving DecidableEq

/-- `wasm_encoder::ValType` (only the two used). -/
inductive ValType where
  | i32 | i64
deriving DecidableEq

/-- `wasm_encoder::ExportKind` (only the two used). -/
inductive ExportKind where
  | func | memory
deriving DecidableEq

/-- One section of an assembled module, at the level at which the source
drives `wasm_encoder`: the list of entries given to each section object
before `module.section(..)` is called. -/
inductive WSection where
  | types (sigs : List (List ValType × List ValType))
  | funcs (typeIdxs : List Nat)
  | mems (memories : List (Nat × Option Nat))
  | exports (entries : List (String × ExportKind × Nat))
  | code (fns : List (List (Nat × ValType) × List WasmInstr))
deriving DecidableEq

/-- A finished module: the sequence of sections appended by the source. -/
abbrev WModule := List WSection

/- ----------------------------------------------------------------
   Register allocator (`transpiler_real.rs`, `RegisterAllocator`)
   ---------------------------------------------------------------- -/

/-- First-match association-list lookup, modelling `HashMap::get` /
`HashMap::entry` probing keyed by register identity. -/
def lookupReg : List (Register × Nat) → Register → Option Nat
  | [], _ => none
  | (k, v) :: rest, r => if k = r then some v else lookupReg rest r

/-- `RegisterAllocator`: register→local map, next free local index, and
the optional shared flag local. -/
structure RegisterAllocator where
  reg_map : List (Register × Nat)
  next_local : Nat
  flag_reg : Option Nat
deriving DecidableEq

/-- `RegisterAllocator::new()`. -/
def RegisterAllocator.new : RegisterAllocator :=
  { reg_map := [], next_local := 0, flag_reg := none }

/-- `RegisterAllocator::get_or_allocate`: return the mapped local if the
register is present, otherwise insert it at `next_local` and bump the
counter. -/
def RegisterAllocator.get_or_allocate (a : RegisterAllocator) (r : Register) :
    Nat × RegisterAllocator :=
  match lookupReg a.reg_map r with
  | some idx => (idx, a)
  | none =>
    (a.next_local,
     { reg_map := (r, a.next_local) :: a.reg_map
       next_local := a.next_local + 1
       flag_reg := a.flag_reg })

/-- `RegisterAllocator::get_or_allocate_flag`: lazily allocate the single
shared flag local. -/
def RegisterAllocator.get_or_allocate_flag (a : RegisterAllocator) :
    Nat × RegisterAllocator :=
  match a.flag_reg with
  | some idx => (idx, a)
  | none =>
    (a.next_local,
     { reg_map := a.reg_map
       next_local := a.next_local + 1
       flag_reg := some a.next_local })

/-- `RegisterAllocator::get_locals_types`: one uniform i64 run covering
all allocated locals, or nothing when none were allocated. -/
def RegisterAllocator.get_locals_types (a : RegisterAllocator) : List (Nat × ValType) :=
  if a.next_local > 0 then [(a.next_local, ValType.i64)] else []

/- ----------------------------------------------------------------
   Instruction-level translation (`translate_instruction`)
   ---------------------------------------------------------------- -/

/-- `X64ToWasmTranspiler::translate_instruction`. The `label_map`
parameter is threaded exactly as in the source (it is never read by any
arm). Every arm of the source returns `Ok`, including the push/pop arms
and the catch-all arm (which only prints a warning); the embedding
mirrors that. -/
def translate_instruction (instr : Instruction) (a : RegisterAllocator)
    (label_map : List (Nat × Nat)) : Except String (List WasmInstr × RegisterAllocator) :=
  match instr.mnemonic with
  | Mnemonic.mov =>
    match instr.op0_kind, instr.op1_kind with
    | OpKind.register, OpKind.register =>
      let p0 := a.get_or_allocate instr.op0_register
      let p1 := p0.2.get_or_allocate instr.op1_register
      Except.ok ([WasmInstr.localGet p1.1, WasmInstr.localSet p0.1], p1.2)
    | OpKind.register, OpKind.immediate32 =>
      let p0 := a.get_or_allocate instr.op0_register
      Except.ok ([WasmInstr.i64Const (Int.ofNat instr.immediate32),
                  WasmInstr.localSet p0.1], p0.2)
    | OpKind.register, OpKind.memory =>
      let p0 := a.get_or_allocate instr.op0_register
      let pb := p0.2.get_or_allocate instr.memory_base
      Except.ok ([WasmInstr.localGet pb.1,
                  WasmInstr.i64Load instr.memory_displacement 3,
                  WasmInstr.localSet p0.1], pb.2)
    | OpKind.memory, OpKind.register =>
      let p1 := a.get_or_allocate instr.op1_register
      let pb := p1.2.get_or_allocate instr.memory_base
      Except.ok ([WasmInstr.localGet pb.1, WasmInstr.localGet p1.1,
                  WasmInstr.i64Store instr.memory_displacement 3], pb.2)
    | _, _ => Except.ok ([], a)
  | Mnemonic.add =>
    let p0 := a.get_or_allocate instr.op0_register
    match instr.op1_kind with
    | OpKind.register =>
      let p1 := p0.2.get_or_allocate instr.op1_register
      Except.ok ([WasmInstr.localGet p0.1, WasmInstr.localGet p1.1,
                  WasmInstr.i64Add, WasmInstr.localSet p0.1], p1.2)
    | OpKind.immediate32 =>
      Except.ok ([WasmInstr.localGet p0.1,
                  WasmInstr.i64Const (Int.ofNat instr.immediate32),
                  WasmInstr.i64Add, WasmInstr.localSet p0.1], p0.2)
    | _ => Except.ok ([], p0.2)
  | Mnemonic.sub =>
    let p0 := a.get_or_allocate instr.op0_register
    match instr.op1_kind with
    | OpKind.register =>
      let p1 := p0.2.get_or_allocate instr.op1_register
      Except.ok ([WasmInstr.localGet p0.1, WasmInstr.localGet p1.1,
                  WasmInstr.i64Sub, WasmInstr.localSet p0.1], p1.2)
    | OpKind.immediate32 =>
      Except.ok ([WasmInstr.localGet p0.1,
                  WasmInstr.i64Const (Int.ofNat instr.immediate32),
                  WasmInstr.i64Sub, WasmInstr.localSet p0.1], p0.2)
    | _ => Except.ok ([], p0.2)
  | Mnemonic.imul =>
    let p0 := a.get_or_allocate instr.op0_register
    let p1 := p0.2.get_or_allocate instr.op1_register
    Except.ok ([WasmInstr.localGet p0.1, WasmInstr.localGet p1.1,
                WasmInstr.i64Mul, WasmInstr.localSet p0.1], p1.2)
  | Mnemonic.cmp =>
    let pf := a.get_or_allocate_flag
    let p0 := pf.2.get_or_allocate instr.op0_register
    match instr.op1_kind with
    | OpKind.register =>
      let p1 := p0.2.get_or_allocate instr.op1_register
      Except.ok ([WasmInstr.localGet p0.1, WasmInstr.localGet p1.1,
                  WasmInstr.i64Sub, WasmInstr.localSet pf.1], p1.2)
    | OpKind.immediate32 =>
      Except.ok ([WasmInstr.localGet p0.1,
                  WasmInstr.i64Const (Int.ofNat instr.immediate32),
                  WasmInstr.i64Sub, WasmInstr.localSet pf.1], p0.2)
    | _ => Except.ok ([WasmInstr.localSet pf.1], p0.2)
  | Mnemonic.test =>
    let pf := a.get_or_allocate_flag
    let p0 := pf.2.get_or_allocate instr.op0_register
    let p1 := p0.2.get_or_allocate instr.op1_register
    Except.ok ([WasmInstr.localGet p0.1, WasmInstr.localGet p1.1,
                WasmInstr.i64And, WasmInstr.localSet pf.1], p1.2)
  | Mnemonic.je => Except.ok ([], a)
  | Mnemonic.jne => Except.ok ([], a)
  | Mnemonic.jg => Except.ok ([], a)
  | Mnemonic.jl => Except.ok ([], a)
  | Mnemonic.jge => Except.ok ([], a)
  | Mnemonic.jle => Except.ok ([], a)
  | Mnemonic.ja => Except.ok ([], a)
  | Mnemonic.jb => Except.ok ([], a)
  | Mnemonic.jmp => Except.ok ([], a)
  | Mnemonic.call => Except.ok ([], a)
  | Mnemonic.ret =>
    let p := a.get_or_allocate Register.rax
    Except.ok ([WasmInstr.localGet p.1, WasmInstr.ret], p.2)
  | Mnemonic.push => Except.ok ([], a)
  | Mnemonic.pop => Except.ok ([], a)
  | _ => Except.ok ([], a)

/- ----------------------------------------------------------------
   Control-flow graph (`ControlFlowGraph::from_instructions`)
   ---------------------------------------------------------------- -/

/-- One element of the decoded sequence: absolute address + instruction
(`InstructionInfo`). -/
structure InstructionInfo where
  addr : Nat
  instr : Instruction
deriving DecidableEq

/-- Default info used for out-of-range indexing (the Rust code only ever
indexes in range). -/
def info0 : InstructionInfo := { addr := 0, instr := instr0 }

/-- `BasicBlock`: address range + the indices into the decoded sequence. -/
structure BasicBlock where
  start_addr : Nat
  end_addr : Nat
  instruction_indices : List Nat
deriving DecidableEq

/-- `ControlFlowGraph` (the source declares `edges` but never writes to
it). -/
structure ControlFlowGraph where
  blocks : List BasicBlock
  edges : List (Nat × List Nat)
deriving DecidableEq

/-- `HashSet::insert` on the leader set, modelled as membership-guarded
cons (only membership is ever observed). -/
def insertLeader (l : List Nat) (x : Nat) : List Nat :=
  if x ∈ l then l else x :: l

/-- The mnemonics treated as control-transfer instructions by the leader
scan. -/
def is_branch_mnemonic : Mnemonic → Bool
  | Mnemonic.jmp | Mnemonic.je | Mnemonic.jne | Mnemonic.jg
  | Mnemonic.jl | Mnemonic.jge | Mnemonic.jle | Mnemonic.ja
  | Mnemonic.jb | Mnemonic.call | Mnemonic.ret => true
  | _ => false

/-- The leader-collection loop of `from_instructions`: entry address,
near-branch targets, and the address following each control transfer. -/
def collectLeaders (instructions : List InstructionInfo) (entry : Nat) : List Nat :=
  instructions.enum.foldl
    (fun leaders p =>
      if is_branch_mnemonic p.2.instr.mnemonic then
        let leaders1 :=
          if p.2.instr.is_jmp_short_or_near then
            insertLeader leaders p.2.instr.near_branch_target
          else leaders
        if p.1 + 1 < instructions.length then
          insertLeader leaders1 (instructions.getD (p.1 + 1) info0).addr
        else leaders1
      else leaders)
    (insertLeader [] entry)

/-- The block-building loop of `from_instructions`: walk the indexed
instruction stream, flushing the current run whenever a leader address is
reached with a non-empty run, and flushing the final run at the end. -/
def buildBlocksGo (instructions : List InstructionInfo) (leaders : List Nat) :
    List (Nat × InstructionInfo) → Nat → List Nat → List BasicBlock
  | [], curStart, curIdxs =>
    if curIdxs.isEmpty then []
    else
      [{ start_addr := (instructions.getD curStart info0).addr
         end_addr := (instructions.getD (instructions.length - 1) info0).addr
         instruction_indices := curIdxs }]
  | p :: rest, curStart, curIdxs =>
    if p.2.addr ∈ leaders ∧ curIdxs ≠ [] then
      { start_addr := (instructions.getD curStart info0).addr
        end_addr := (instructions.getD (p.1 - 1) info0).addr
        instruction_indices := curIdxs }
        :: buildBlocksGo instructions leaders rest p.1 [p.1]
    else
      buildBlocksGo instructions leaders rest curStart (curIdxs ++ [p.1])

/-- `ControlFlowGraph::from_instructions`. -/
def ControlFlowGraph.from_instructions (instructions : List InstructionInfo)
    (entry : Nat) : ControlFlowGraph :=
  let leaders := collectLeaders instructions entry
  { blocks := buildBlocksGo instructions leaders instructions.enum 0 []
    edges := [] }

/-- `ControlFlowGraph::structure_control_flow`: the prototype just clones
the blocks in order; the label map is ignored. -/
def ControlFlowGraph.structure_control_flow (cfg : ControlFlowGraph)
    (label_map : List (Nat × Nat)) : List BasicBlock :=
  cfg.blocks

/- ----------------------------------------------------------------
   Function-level translation and module assembly
   ---------------------------------------------------------------- -/

/-- The per-block index loop of `translate_block`, sequencing
`translate_instruction` over the block's instruction indices. -/
def translate_indices (instructions : List InstructionInfo)
    (label_map : List (Nat × Nat)) :
    List Nat → RegisterAllocator → Except String (List WasmInstr × RegisterAllocator)
  | [], a => Except.ok ([], a)
  | idx :: rest, a =>
    match translate_instruction (instructions.getD idx info0).instr a label_map with
    | Except.error e => Except.error e
    | Except.ok (w, a1) =>
      match translate_indices instructions label_map rest a1 with
      | Except.error e => Except.error e
      | Except.ok (ws, a2) => Except.ok (w ++ ws, a2)

/-- `X64ToWasmTranspiler::translate_block`. -/
def translate_block (block : BasicBlock) (instructions : List InstructionInfo)
    (a : RegisterAllocator) (label_map : List (Nat × Nat)) :
    Except String (List WasmInstr × RegisterAllocator) :=
  translate_indices instructions label_map block.instruction_indices a

/-- The per-block loop of `translate_to_wasm`. -/
def translate_blocks (instructions : List InstructionInfo)
    (label_map : List (Nat × Nat)) :
    List BasicBlock → RegisterAllocator → Except String (List WasmInstr × RegisterAllocator)
  | [], a => Except.ok ([], a)
  | b :: rest, a =>
    match translate_block b instructions a label_map with
    | Except.error e => Except.error e
    | Except.ok (w, a1) =>
      match translate_blocks instructions label_map rest a1 with
      | Except.error e => Except.error e
      | Except.ok (ws, a2) => Except.ok (w ++ ws, a2)

/-- `X64ToWasmTranspiler::translate_to_wasm`: build the address→index
label map, structure the CFG, and translate every block in order. -/
def translate_to_wasm (instructions : List InstructionInfo)
    (cfg : ControlFlowGraph) (a : RegisterAllocator) :
    Except String (List WasmInstr × RegisterAllocator) :=
  let label_map := instructions.enum.map (fun p => (p.2.addr, p.1))
  translate_blocks instructions label_map (cfg.structure_control_flow label_map) a

/-- `X64ToWasmTranspiler::generate_wasm_module`: type, function, export
and code sections only — the source appends no memory section. -/
def generate_wasm_module (body : List WasmInstr) (allocator : RegisterAllocator) :
    WModule :=
  [WSection.types [([], [ValType.i64])],
   WSection.funcs [0],
   WSection.exports [("callback", ExportKind.func, 0)],
   WSection.code [(allocator.get_locals_types, body ++ [WasmInstr.endOp])]]

/-- Steps 3–6 of `X64ToWasmTranspiler::transpile_function`, starting from
an already-decoded instruction sequence: build the CFG, translate with a
fresh allocator, and assemble the module. -/
def transpile_decoded (instructions : List InstructionInfo) (entry : Nat) :
    Except String WModule :=
  let cfg := ControlFlowGraph.from_instructions instructions entry
  match translate_to_wasm instructions cfg RegisterAllocator.new with
  | Except.error e => Except.error e
  | Except.ok (body, allocator) => Except.ok (generate_wasm_module body allocator)

/- ----------------------------------------------------------------
   Binary symbol resolver (`extract_function_code`)
   ---------------------------------------------------------------- -/

/-- `object::SymbolKind` (only `Text` is compared against). -/
inductive SymbolKind where
  | text
  | otherSym (code : Nat)
deriving DecidableEq

/-- One symbol-table entry, with the fields the source reads.
`symbol.name()` returns a `Result`, so the name is an `Option`;
`symbol.size()` returns a plain `u64` (0 when the container records no
size). -/
structure ObjSymbol where
  name : Option String
  kind : SymbolKind
  addr : Nat
  size : Nat
deriving DecidableEq

/-- One section, with the fields the source reads. `section.name()` and
`section.data()` both return `Result`s, so both are `Option`s. -/
structure ObjSection where
  name : Option String
  addr : Nat
  data : Option (List Nat)
deriving DecidableEq

/-- A parsed object file, as observed through `obj.symbols()` and
`obj.sections()`. -/
structure ObjFile where
  symbols : List ObjSymbol
  sections : List ObjSection
deriving DecidableEq

/-- The symbol scan of `extract_function_code`: first code-kind symbol
whose name matches exactly (the source breaks at the first match). -/
def findSymbol : List ObjSymbol → String → Option ObjSymbol
  | [], _ => none
  | s :: rest, n =>
    if s.kind = SymbolKind.text ∧ s.name = some n then some s
    else findSymbol rest n

/-- The section loop of `extract_function_code`: scan for sections named
".text"; error immediately if such a section has no data; slice out
exactly `size` bytes when the address range fits; otherwise keep
scanning, failing at the end with the section-not-found error. -/
def findTextSection : List ObjSection → Nat → Nat → Except String (List Nat × Nat)
  | [], _, _ => Except.error "Function code not found in .text section"
  | sec :: rest, addr, size =>
    if sec.name = some ".text" then
      match sec.data with
      | none => Except.error "No section data"
      | some d =>
        if addr ≥ sec.addr ∧ addr + size ≤ sec.addr + d.length then
          Except.ok (((d.drop (addr - sec.addr)).take size), addr)
        else findTextSection rest addr size
    else findTextSection rest addr size

/-- `X64ToWasmTranspiler::extract_function_code`. The source records the
matched symbol's address and size into two `Option`s and unwraps each
with its own error string; since both are set together, the size error
path is kept verbatim even though it is unreachable. -/
def extract_function_code (obj : ObjFile) (fn_name : String) :
    Except String (List Nat × Nat) :=
  let target := findSymbol obj.symbols fn_name
  let target_addr := target.map ObjSymbol.addr
  let target_size := target.map ObjSymbol.size
  match target_addr with
  | none => Except.error "Function not found"
  | some addr =>
    match target_size with
    | none => Except.error "Function size unknown"
    | some size => findTextSection obj.sections addr size

/- ----------------------------------------------------------------
   Instruction decoder wrapper (`disassemble`)
   ---------------------------------------------------------------- -/

/-- A decoder step: given the byte slice and the current position, return
the decoded instruction and the number of bytes it occupies. This stands
for `iced_x86::Decoder::decode`, which is total — on bytes that cannot
form a valid instruction it still yields an instruction (with the
INVALID code) and advances. The iced decoder always advances by at least
one byte; `disassembleGo` enforces that with `max 1`. -/
def DecodeStep : Type := List Nat → Nat → Instruction × Nat

/-- The `while decoder.can_decode()` loop of `disassemble`: decode
sequentially from offset 0 while the position is inside the slice,
recording `rip + position` as each instruction's address. The fuel
argument (initially the slice length) only bounds the recursion; it never
runs out before the position leaves the slice. -/
def disassembleGo (decode : DecodeStep) (code : List Nat) (rip : Nat) :
    Nat → Nat → List InstructionInfo
  | _, 0 => []
  | pos, fuel + 1 =>
    if pos < code.length then
      let r := decode code pos
      { addr := rip + pos, instr := r.1 }
        :: disassembleGo decode code rip (pos + max 1 r.2) fuel
    else []

/-- `X64ToWasmTranspiler::disassemble`: run the decode loop and wrap the
result in `Ok` — the source has no error path at all. -/
def disassemble (decode : DecodeStep) (code : List Nat) (rip : Nat) :
    Except String (List InstructionInfo) :=
  Except.ok (disassembleGo decode code rip 0 code.length)

/- ----------------------------------------------------------------
   Minimal transpiler (`minimal_transpile.rs`)
   ---------------------------------------------------------------- -/

/-- `WasmTranslator`: register→local map and next free local
(local 0 is the parameter, so allocation starts at 1). -/
structure WasmTranslator where
  registers : List (Register × Nat)
  next_local : Nat
deriving DecidableEq

/-- `WasmTranslator::new()`. -/
def WasmTranslator.new : WasmTranslator :=
  { registers := [], next_local := 1 }

/-- `WasmTranslator::num_locals`. -/
def WasmTranslator.num_locals (t : WasmTranslator) : Nat := t.next_local

/-- `WasmTranslator::get_or_allocate_register`: RDI and EDI are
hard-mapped to local 0 (the first parameter) without touching the state;
every other register goes through the map. -/
def WasmTranslator.get_or_allocate_register (t : WasmTranslator) (r : Register) :
    Nat × WasmTranslator :=
  if r = Register.rdi ∨ r = Register.edi then (0, t)
  else
    match lookupReg t.registers r with
    | some l => (l, t)
    | none =>
      (t.next_local,
       { registers := (r, t.next_local) :: t.registers
         next_local := t.next_local + 1 })

/-- `SimpleTranspiler::generate_module`: type, function, memory, export
and code sections — the single-page memory and its "memory" export are
appended unconditionally. -/
def SimpleTranspiler.generate_module (instructions : List WasmInstr)
    (num_locals : Nat) : WModule :=
  [WSection.types [([ValType.i64], [ValType.i64])],
   WSection.funcs [0],
   WSection.mems [(1, some 1)],
   WSection.exports [("callback", ExportKind.func, 0),
                     ("memory", ExportKind.memory, 0)],
   WSection.code [([(num_locals, ValType.i64)], instructions ++ [WasmInstr.endOp])]]

/- ----------------------------------------------------------------
   Demo cache (`transpiler.rs`)
   ---------------------------------------------------------------- -/

/-- `Transpiler::generate_increment_wasm`. -/
def generate_increment_wasm : WModule :=
  [WSection.types [([ValType.i32], [ValType.i32])],
   WSection.funcs [0],
   WSection.exports [("increment", ExportKind.func, 0)],
   WSection.code [([], [WasmInstr.localGet 0, WasmInstr.i32Const 1,
                        WasmInstr.i32Add, WasmInstr.endOp])]]

/-- `Transpiler::generate_decrement_wasm`. -/
def generate_decrement_wasm : WModule :=
  [WSection.types [([ValType.i32], [ValType.i32])],
   WSection.funcs [0],
   WSection.exports [("decrement", ExportKind.func, 0)],
   WSection.code [([], [WasmInstr.localGet 0, WasmInstr.i32Const 1,
                        WasmInstr.i32Sub, WasmInstr.endOp])]]

/-- `Transpiler::generate_reset_wasm`. -/
def generate_reset_wasm : WModule :=
  [WSection.types [([ValType.i32], [ValType.i32])],
   WSection.funcs [0],
   WSection.exports [("reset", ExportKind.func, 0)],
   WSection.code [([], [WasmInstr.i32Const 0, WasmInstr.endOp])]]

/-- `Transpiler::transpile_function`: a fixed per-name generator — the
match over the three demo names; every other name yields `None`. It never
touches the decoding/translation pipeline. -/
def Transpiler.transpile_function (fn_name : String) : Option WModule :=
  if fn_name = "increment_counter" then some generate_increment_wasm
  else if fn_name = "decrement_counter" then some generate_decrement_wasm
  else if fn_name = "reset_counter" then some generate_reset_wasm
  else none

/-- The fixed callback list of `Transpiler::analyze_binary`. -/
def callbacks : List String :=
  ["increment_counter", "decrement_counter", "reset_counter"]

/-- `Transpiler`: the name→bytes cache (`HashMap` as association list,
later insertions shadowing earlier ones). -/
structure Transpiler where
  wasm_cache : List (String × WModule)

/-- First-match cache lookup (`HashMap::get`). -/
def lookupCache : List (String × WModule) → String → Option WModule
  | [], _ => none
  | (k, v) :: rest, n => if k = n then some v else lookupCache rest n

/-- `Transpiler::analyze_binary`: run `transpile_function` once per
callback name, inserting successful results. The second component
records, in order, the names on which `transpile_function` was invoked
by the loop (one invocation per loop iteration). -/
def Transpiler.analyze_binary : List (String × WModule) × List String :=
  callbacks.foldl
    (fun acc cb =>
      (match Transpiler.transpile_function cb with
       | some w => (cb, w) :: acc.1
       | none => acc.1,
       acc.2 ++ [cb]))
    ([], [])

/-- `Transpiler::new()`: build the cache once; it is never mutated
afterwards (the only other method takes `&self`). -/
def Transpiler.new : Transpiler :=
  { wasm_cache := Transpiler.analyze_binary.1 }

/-- `Transpiler::get_wasm_for_function`: a pure cache lookup (cloning the
stored buffer); it never invokes `transpile_function`. -/
def Transpiler.get_wasm_for_function (t : Transpiler) (fn_name : String) :
    Option WModule :=
  lookupCache t.wasm_cache fn_name

/- ----------------------------------------------------------------
   A small interpreter for the emitted straight-line WASM
   ---------------------------------------------------------------- -/

/-- Wrap an integer into the signed 64-bit range, the semantics of the
emitted i64 arithmetic. -/
def wrap64 (x : Int) : Int := (x + 2 ^ 63) % 2 ^ 64 - 2 ^ 63

/-- Interpreter state: locals, the value stack, and linear memory
(addressed by the effective i64 address). -/
structure WasmState where
  locals : Nat → Int
  stack : List Int
  mem : Int → Int

/-- One step of the straight-line fragment actually emitted by the
translator. Control instructions (`ret`, `endOp`) and the i32 family are
outside this mini-interpreter and yield `none`. -/
def step : WasmInstr → WasmState → Option WasmState
  | WasmInstr.localGet i, s => some { s with stack := s.locals i :: s.stack }
  | WasmInstr.localSet i, s =>
    match s.stack with
    | v :: rest => some { s with locals := Function.update s.locals i v, stack := rest }
    | [] => none
  | WasmInstr.i64Const v, s => some { s with stack := v :: s.stack }
  | WasmInstr.i64Add, s =>
    match s.stack with
    | b :: va :: rest => some { s with stack := wrap64 (va + b) :: rest }
    | _ => none
  | WasmInstr.i64Sub, s =>
    match s.stack with
    | b :: va :: rest => some { s with stack := wrap64 (va - b) :: rest }
    | _ => none
  | WasmInstr.i64Mul, s =>
    match s.stack with
    | b :: va :: rest => some { s with stack := wrap64 (va * b) :: rest }
    | _ => none
  | WasmInstr.i64And, s =>
    match s.stack with
    | b :: va :: rest => some { s with stack := Int.land va b :: rest }
    | _ => none
  | WasmInstr.i64Load off _, s =>
    match s.stack with
    | va :: rest => some { s with stack := s.mem (va + Int.ofNat off) :: rest }
    | [] => none
  | WasmInstr.i64Store off _, s =>
    match s.stack with
    | v :: va :: rest =>
      some { s with mem := Function.update s.mem (va + Int.ofNat off) v, stack := rest }
    | _ => none
  | _, _ => none

/-- Run a straight-line instruction sequence. -/
def run : List WasmInstr → WasmState → Option WasmState
  | [], s => some s
  | i :: rest, s =>
    match step i s with
    | some s1 => run rest s1
    | none => none

/- ----------------------------------------------------------------
   Concrete instructions and inputs used by the claims
   ---------------------------------------------------------------- -/

/-- A `push` instruction (operands are never inspected by its arm). -/
def pushInstr : Instruction := { instr0 with mnemonic := Mnemonic.push }

/-- A `pop` instruction. -/
def popInstr : Instruction := { instr0 with mnemonic := Mnemonic.pop }

/-- A `ret` instruction. -/
def retInstr : Instruction := { instr0 with mnemonic := Mnemonic.ret }

/-- `mov <reg>, imm32`. -/
def movRegImm (r : Register) (n : Nat) : Instruction :=
  { instr0 with mnemonic := Mnemonic.mov, op0_kind := OpKind.register,
                op1_kind := OpKind.immediate32, op0_register := r,
                immediate32 := n }

/-- `cmp <reg>, imm32`. -/
def cmpRegImm (r : Register) (n : Nat) : Instruction :=
  { instr0 with mnemonic := Mnemonic.cmp, op0_kind := OpKind.register,
                op1_kind := OpKind.immediate32, op0_register := r,
                immediate32 := n }

/-- `jg <target>` (near conditional branch). -/
def jgInstr (target : Nat) : Instruction :=
  { instr0 with mnemonic := Mnemonic.jg, is_jmp_short_or_near := true,
                near_branch_target := target }

/-- `jmp <target>` (near unconditional branch). -/
def jmpInstr (target : Nat) : Instruction :=
  { instr0 with mnemonic := Mnemonic.jmp, is_jmp_short_or_near := true,
                near_branch_target := target }

/-- A decoded function body containing unsupported instructions:
`push; mov rax, 7; pop; ret`. -/
def demoUnsupported : List InstructionInfo :=
  [⟨0, pushInstr⟩, ⟨1, movRegImm Register.rax 7⟩, ⟨8, popInstr⟩, ⟨9, retInstr⟩]

/-- The module the pipeline actually produces for `demoUnsupported`:
the push/pop are gone without an error. -/
def demoUnsupportedModule : WModule :=
  [WSection.types [([], [ValType.i64])],
   WSection.funcs [0],
   WSection.exports [("callback", ExportKind.func, 0)],
   WSection.code [([(1, ValType.i64)],
     [WasmInstr.i64Const 7, WasmInstr.localSet 0,
      WasmInstr.localGet 0, WasmInstr.ret, WasmInstr.endOp])]]

/-- Scenario B of the spec, decoded: `cmp rdi, 0; jg 16; mov eax, 0;
jmp 18; [16:] mov eax, 1; [18:] ret` — "compare the parameter to 0;
return 1 if greater else 0". -/
def scenarioB : List InstructionInfo :=
  [⟨0, cmpRegImm Register.rdi 0⟩, ⟨4, jgInstr 16⟩, ⟨6, movRegImm Register.eax 0⟩,
   ⟨11, jmpInstr 18⟩, ⟨16, movRegImm Register.eax 1⟩, ⟨18, retInstr⟩]

/-- The module the pipeline actually produces for `scenarioB`: a
straight-line body that computes the comparison into the flag local,
drops both branches, runs both `mov eax` blocks in order, and returns the
never-written `rax` local — the branch is silently ignored. -/
def scenarioBModule : WModule :=
  [WSection.types [([], [ValType.i64])],
   WSection.funcs [0],
   WSection.exports [("callback", ExportKind.func, 0)],
   WSection.code [([(4, ValType.i64)],
     [WasmInstr.localGet 1, WasmInstr.i64Const 0, WasmInstr.i64Sub,
      WasmInstr.localSet 0,
      WasmInstr.i64Const 0, WasmInstr.localSet 2,
      WasmInstr.i64Const 1, WasmInstr.localSet 2,
      WasmInstr.localGet 3, WasmInstr.ret, WasmInstr.endOp])]]

/-- True when the module carries a memory section. -/
def isMemSection : WSection → Bool
  | WSection.mems _ => true
  | _ => false

/-- Whether a module contains a memory section. -/
def hasMemorySection (m : WModule) : Bool := m.any isMemSection

/-- True for memory load/store operations. -/
def isLoadStore : WasmInstr → Bool
  | WasmInstr.i64Load _ _ => true
  | WasmInstr.i64Store _ _ => true
  | _ => false

/-- Whether a translated operation sequence contains a load or store. -/
def hasLoadStore (body : List WasmInstr) : Bool := body.any isLoadStore

end SelfServe

deriving instance DecidableEq for Except

namespace SelfServe

/- ----------------------------------------------------------------
   Claim theorems
   ---------------------------------------------------------------- -/

/-- Claim C1 (code behavior at the failing input): `translate_instruction`
returns `Ok` with an empty output — not an `UnsupportedInstruction`
error — for `push`, for `pop`, and for any unmatched mnemonic, leaving
the allocator untouched; consequently the whole pipeline, run on a
function containing `push` and `pop`, succeeds and returns a truncated
module with those instructions silently dropped. -/
theorem translate_drops_unsupported_instructions (a : RegisterAllocator)
    (lm : List (Nat × Nat)) (k : Nat) :
    translate_instruction pushInstr a lm = Except.ok ([], a) ∧
    translate_instruction popInstr a lm = Except.ok ([], a) ∧
    translate_instruction { instr0 with mnemonic := Mnemonic.otherMnemonic k } a lm
      = Except.ok ([], a) ∧
    transpile_decoded demoUnsupported 0 = Except.ok demoUnsupportedModule := by
  refine ⟨rfl, rfl, rfl, by decide⟩

/-- Claim C2 (code behavior at the failing input): translating the
scenario-B body succeeds (no `UnsupportedInstruction` error) and yields a
module whose body ignores the conditional branch entirely: every
conditional-jump arm of `translate_instruction` emits nothing, and the
structurer concatenates all blocks in order, so both sides of the branch
execute unconditionally and a constant path is taken. -/
theorem conditional_branch_silently_ignored (a : RegisterAllocator)
    (lm : List (Nat × Nat)) (target : Nat) :
    translate_instruction (jgInstr target) a lm = Except.ok ([], a) ∧
    (ControlFlowGraph.from_instructions scenarioB 0).structure_control_flow lm
      = (ControlFlowGraph.from_instructions scenarioB 0).blocks ∧
    transpile_decoded scenarioB 0 = Except.ok scenarioBModule := by
  refine ⟨rfl, rfl, by decide⟩

/-- Claim C6 (code behavior): `disassemble` has no error path at all —
for every decoder step behavior (including the one iced exhibits on byte
sequences that cannot form a valid instruction, namely yielding an
INVALID-code instruction), it wraps the decode loop's output in `Ok` and
never returns an `InvalidEncoding` (or any other) error. -/
theorem disassemble_never_fails (decode : DecodeStep) (code : List Nat)
    (rip : Nat) (e : String) :
    disassemble decode code rip
      = Except.ok (disassembleGo decode code rip 0 code.length) ∧
    disassemble decode code rip ≠ Except.error e := by
  exact ⟨rfl, fun h => Except.noConfusion h⟩

/-- Claim C8 counterexample: the claimed "memory section iff a load/store
occurred" fails in both directions — `generate_wasm_module` emits no
memory section even when the body contains a load, and
`SimpleTranspiler::generate_module` emits a memory section even when the
body contains no load or store. -/
theorem memory_section_iff_loadstore_false :
    hasLoadStore [WasmInstr.i64Load 0 3] = true ∧
    hasMemorySection (generate_wasm_module [WasmInstr.i64Load 0 3]
      { reg_map := [(Register.rax, 0)], next_local := 1, flag_reg := none }) = false ∧
    hasLoadStore [] = false ∧
    hasMemorySection (SimpleTranspiler.generate_module [] 1) = true := by
  decide

/-- Claim C8 (amended): the memory section is independent of the
translated operations — `generate_wasm_module` (transpiler_real) never
emits a memory section and exports only the function, while
`SimpleTranspiler::generate_module` (minimal_transpile) always emits a
single-page memory section and always exports it under the fixed name
"memory" alongside the function, whatever the body contains. -/
theorem memory_section_independent_of_body (body : List WasmInstr)
    (alloc : RegisterAllocator) (n : Nat) :
    hasMemorySection (generate_wasm_module body alloc) = false ∧
    (generate_wasm_module body alloc).filter (fun s => !isMemSection s)
      = generate_wasm_module body alloc ∧
    WSection.exports [("callback", ExportKind.func, 0)] ∈ generate_wasm_module body alloc ∧
    hasMemorySection (SimpleTranspiler.generate_module body n) = true ∧
    WSection.mems [(1, some 1)] ∈ SimpleTranspiler.generate_module body n ∧
    WSection.exports [("callback", ExportKind.func, 0), ("memory", ExportKind.memory, 0)]
      ∈ SimpleTranspiler.generate_module body n := by
  refine ⟨rfl, rfl, ?_, rfl, ?_, ?_⟩ <;> simp [generate_wasm_module,
    SimpleTranspiler.generate_module]

/-- The block-building loop emits every incoming instruction index
exactly once and in order, after the pending run — for any leader set.
The incoming pair list carries consecutive indices starting at `i`. -/
theorem buildBlocksGo_flatten (instructions : List InstructionInfo) (leaders : List Nat)
    (l : List (Nat × InstructionInfo)) :
    ∀ i : Nat, l.map Prod.fst = List.range' i l.length →
      ∀ curStart cur,
        ((buildBlocksGo instructions leaders l curStart cur).map
          BasicBlock.instruction_indices).flatten = cur ++ List.range' i l.length := by
  induction l with
  | nil =>
    intro i _ curStart cur
    by_cases hc : cur = []
    · subst hc; simp [buildBlocksGo]
    · simp [buildBlocksGo, hc]
  | cons p rest ih =>
    intro i h curStart cur
    rw [List.length_cons, List.range'_succ, List.map_cons, List.cons_eq_cons] at h
    obtain ⟨hp, hrest⟩ := h
    rw [List.length_cons, List.range'_succ]
    by_cases hsplit : p.2.addr ∈ leaders ∧ cur ≠ []
    · rw [buildBlocksGo, if_pos hsplit, List.map_cons, List.flatten_cons,
        ih (i + 1) hrest p.1 [p.1], hp]
      simp
    · rw [buildBlocksGo, if_neg hsplit, ih (i + 1) hrest curStart (cur ++ [p.1]), hp]
      simp

/-- The flattened block indices of `from_instructions` are exactly
`[0, 1, ..., N-1]`. -/
theorem from_instructions_flatten (instructions : List InstructionInfo) (entry : Nat) :
    (((ControlFlowGraph.from_instructions instructions entry).blocks).map
      BasicBlock.instruction_indices).flatten = List.range instructions.length := by
  have h := buildBlocksGo_flatten instructions (collectLeaders instructions entry)
    instructions.enum 0 ?_ 0 []
  · simpa [ControlFlowGraph.from_instructions, List.enum_length,
      List.range_eq_range'] using h
  · simp [List.enum_map_fst, List.enum_length, List.range_eq_range']

/-- Claim C3: the basic blocks built by `ControlFlowGraph::from_instructions`
partition the decoded instruction indices — an index is covered by some
block exactly when it is below `N`, each block's index list has no
duplicates, and distinct blocks are disjoint. -/
theorem cfg_blocks_partition (instructions : List InstructionInfo) (entry : Nat) :
    (∀ i : Nat,
       (∃ b ∈ (ControlFlowGraph.from_instructions instructions entry).blocks,
          i ∈ b.instruction_indices) ↔ i < instructions.length) ∧
    (∀ b ∈ (ControlFlowGraph.from_instructions instructions entry).blocks,
       b.instruction_indices.Nodup) ∧
    List.Pairwise
      (fun b c => ∀ i : Nat, i ∈ b.instruction_indices → i ∉ c.instruction_indices)
      (ControlFlowGraph.from_instructions instructions entry).blocks := by
  have hflat := from_instructions_flatten instructions entry
  have hnodup :
      (((ControlFlowGraph.from_instructions instructions entry).blocks).map
        BasicBlock.instruction_indices).flatten.Nodup := by
    rw [hflat]; exact List.nodup_range _
  rw [List.nodup_flatten] at hnodup
  refine ⟨?_, ?_, ?_⟩
  · intro i
    have : i ∈ (((ControlFlowGraph.from_instructions instructions entry).blocks).map
        BasicBlock.instruction_indices).flatten ↔ i < instructions.length := by
      rw [hflat, List.mem_range]
    rw [List.mem_flatten] at this
    rw [← this]
    constructor
    · rintro ⟨b, hb, hib⟩
      exact ⟨b.instruction_indices, List.mem_map_of_mem _ hb, hib⟩
    · rintro ⟨l, hl, hil⟩
      obtain ⟨b, hb, rfl⟩ := List.mem_map.mp hl
      exact ⟨b, hb, hil⟩
  · intro b hb
    exact hnodup.1 _ (List.mem_map_of_mem _ hb)
  · have := List.pairwise_map.mp hnodup.2
    exact this.imp (fun h => fun i hib => h hib)

/- ----------------------------------------------------------------
   Allocator well-formedness (reachable-state invariant) and claim C4
   ---------------------------------------------------------------- -/

/-- Invariant of `RegisterAllocator` states reachable from `new`: every
mapped slot is below `next_local`, slots are pairwise distinct, and keys
are pairwise distinct. -/
def RegisterAllocator.Wf (a : RegisterAllocator) : Prop :=
  (∀ p ∈ a.reg_map, p.2 < a.next_local) ∧
  (a.reg_map.map Prod.snd).Nodup ∧
  (a.reg_map.map Prod.fst).Nodup

instance (a : RegisterAllocator) : Decidable a.Wf := by
  unfold RegisterAllocator.Wf; infer_instance

/-- Invariant of `WasmTranslator` states reachable from `new`: locals
start at 1, every mapped slot lies in `[1, next_local)`, and slots and
keys are pairwise distinct. -/
def WasmTranslator.Wf (t : WasmTranslator) : Prop :=
  1 ≤ t.next_local ∧
  (∀ p ∈ t.registers, 1 ≤ p.2 ∧ p.2 < t.next_local) ∧
  (t.registers.map Prod.snd).Nodup ∧
  (t.registers.map Prod.fst).Nodup

instance (t : WasmTranslator) : Decidable t.Wf := by
  unfold WasmTranslator.Wf; infer_instance

/-- A successful lookup exposes a map entry. -/
theorem lookupReg_some_mem {m : List (Register × Nat)} {r : Register} {v : Nat}
    (h : lookupReg m r = some v) : (r, v) ∈ m := by
  induction m with
  | nil => exact absurd h (by simp [lookupReg])
  | cons p rest ih =>
    rw [lookupReg] at h
    by_cases hk : p.1 = r
    · rw [if_pos hk] at h
      injection h with hv
      subst hv
      subst hk
      simp
    · rw [if_neg hk] at h
      exact List.mem_cons_of_mem _ (ih h)

/-- Distinct entries of a key-distinct, value-distinct map have distinct
values. -/
theorem lookup_values_distinct {m : List (Register × Nat)} {r r' : Register}
    {v v' : Nat} (hsnd : (m.map Prod.snd).Nodup) (hfst : (m.map Prod.fst).Nodup)
    (h : lookupReg m r = some v) (h' : lookupReg m r' = some v')
    (hne : r ≠ r') : v ≠ v' := by
  intro hvv
  subst hvv
  have hm := lookupReg_some_mem h
  have hm' := lookupReg_some_mem h'
  have := List.inj_on_of_nodup_map hsnd hm hm' rfl
  exact hne (congrArg Prod.fst this)

/-- `Wf` bounds a successful lookup by `next_local`. -/
theorem lookup_lt_next {a : RegisterAllocator} {r : Register} {v : Nat}
    (hWf : a.Wf) (h : lookupReg a.reg_map r = some v) : v < a.next_local :=
  hWf.1 _ (lookupReg_some_mem h)

/-- Claim C4 counterexample: in `RegisterAllocator` (transpiler_real)
slot 0 is not reserved for the first-parameter register — the very first
register allocated, here `rax`, receives slot 0. -/
theorem slot_zero_not_reserved :
    (RegisterAllocator.new.get_or_allocate Register.rax).1 = 0 ∧
    Register.rax ≠ Register.rdi ∧ Register.rax ≠ Register.edi := by
  decide

/-- Claim C4 (amended): for both allocators, `get_or_allocate` is
idempotent per register (the second call returns the same slot and
leaves the state unchanged), and on well-formed states distinct
registers receive distinct slots (for `WasmTranslator`, distinct
registers outside the hard-wired parameter aliases RDI/EDI). The slot-0
reservation holds only in `WasmTranslator::get_or_allocate_register`:
RDI and EDI are hard-mapped to slot 0 without touching the state, and no
other register ever receives slot 0 there; `RegisterAllocator` has no
such reservation — on a fresh state the first register allocated,
whichever it is, receives slot 0. -/
theorem allocator_idempotent_distinct_slots
    (a : RegisterAllocator) (t : WasmTranslator) (q r r' : Register)
    (hWf : a.Wf) (hWfT : t.Wf) (hrr : r ≠ r')
    (hr1 : r ≠ Register.rdi) (hr2 : r ≠ Register.edi)
    (hr1' : r' ≠ Register.rdi) (hr2' : r' ≠ Register.edi) :
    (a.get_or_allocate q).2.get_or_allocate q
      = ((a.get_or_allocate q).1, (a.get_or_allocate q).2) ∧
    (a.get_or_allocate r).1 ≠ ((a.get_or_allocate r).2.get_or_allocate r').1 ∧
    (t.get_or_allocate_register q).2.get_or_allocate_register q
      = ((t.get_or_allocate_register q).1, (t.get_or_allocate_register q).2) ∧
    t.get_or_allocate_register Register.rdi = (0, t) ∧
    t.get_or_allocate_register Register.edi = (0, t) ∧
    (t.get_or_allocate_register r).1 ≠ 0 ∧
    (t.get_or_allocate_register r).1 ≠ ((t.get_or_allocate_register r).2.get_or_allocate_register r').1 ∧
    (RegisterAllocator.new.get_or_allocate q).1 = 0 := by
  obtain ⟨hbound, hsnd, hfst⟩ := hWf
  obtain ⟨hT1, hTbound, hTsnd, hTfst⟩ := hWfT
  refine ⟨?_, ?_, ?_, ?_, ?_, ?_, ?_, rfl⟩
  · unfold RegisterAllocator.get_or_allocate
    cases hq : lookupReg a.reg_map q with
    | some v => simp [hq]
    | none => simp [hq, lookupReg]
  · unfold RegisterAllocator.get_or_allocate
    cases hlr : lookupReg a.reg_map r with
    | some v =>
      cases hlr' : lookupReg a.reg_map r' with
      | some v' =>
        simp only [hlr, hlr']
        exact lookup_values_distinct hsnd hfst hlr hlr' hrr
      | none =>
        simp only [hlr, hlr']
        exact Nat.ne_of_lt (lookup_lt_next ⟨hbound, hsnd, hfst⟩ hlr)
    | none =>
      simp only [hlr, lookupReg, if_neg hrr]
      cases hlr' : lookupReg a.reg_map r' with
      | some v' =>
        simp only [hlr']
        exact (Nat.ne_of_lt (lookup_lt_next ⟨hbound, hsnd, hfst⟩ hlr')).symm
      | none =>
        simp only [hlr']
        omega
  · unfold WasmTranslator.get_or_allocate_register
    by_cases hq : q = Register.rdi ∨ q = Register.edi
    · simp [hq]
    · simp only [if_neg hq]
      cases hlq : lookupReg t.registers q with
      | some v => simp [hlq]
      | none => simp [hlq, lookupReg]
  · simp [WasmTranslator.get_or_allocate_register]
  · simp [WasmTranslator.get_or_allocate_register]
  · have hng : ¬(r = Register.rdi ∨ r = Register.edi) := by
      rintro (h | h) <;> [exact hr1 h; exact hr2 h]
    unfold WasmTranslator.get_or_allocate_register
    rw [if_neg hng]
    cases hlr : lookupReg t.registers r with
    | some v =>
      simp only [hlr]
      have := (hTbound _ (lookupReg_some_mem hlr)).1
      omega
    | none =>
      simp only [hlr]
      omega
  · have hng : ¬(r = Register.rdi ∨ r = Register.edi) := by
      rintro (h | h) <;> [exact hr1 h; exact hr2 h]
    have hng' : ¬(r' = Register.rdi ∨ r' = Register.edi) := by
      rintro (h | h) <;> [exact hr1' h; exact hr2' h]
    unfold WasmTranslator.get_or_allocate_register
    rw [if_neg hng]
    cases hlr : lookupReg t.registers r with
    | some v =>
      simp only [if_neg hng']
      cases hlr' : lookupReg t.registers r' with
      | some v' =>
        simp only [hlr, hlr']
        exact lookup_values_distinct hTsnd hTfst hlr hlr' hrr
      | none =>
        simp only [hlr, hlr']
        exact Nat.ne_of_lt ((hTbound _ (lookupReg_some_mem hlr)).2)
    | none =>
      simp only [hlr, if_neg hng', lookupReg, if_neg hrr]
      cases hlr' : lookupReg t.registers r' with
      | some v' =>
        simp only [hlr']
        exact (Nat.ne_of_lt ((hTbound _ (lookupReg_some_mem hlr')).2)).symm
      | none =>
        simp only [hlr']
        omega

/-- Witness for the amended claim C4, instantiated on fresh allocators
with `rcx` (idempotence), `rax` and `rbx` (distinctness). -/
theorem allocator_idempotent_distinct_slots_witness :
    (RegisterAllocator.new.get_or_allocate Register.rcx).2.get_or_allocate Register.rcx
      = ((RegisterAllocator.new.get_or_allocate Register.rcx).1,
         (RegisterAllocator.new.get_or_allocate Register.rcx).2) ∧
    (RegisterAllocator.new.get_or_allocate Register.rax).1
      ≠ ((RegisterAllocator.new.get_or_allocate Register.rax).2.get_or_allocate Register.rbx).1 ∧
    (WasmTranslator.new.get_or_allocate_register Register.rcx).2.get_or_allocate_register Register.rcx
      = ((WasmTranslator.new.get_or_allocate_register Register.rcx).1,
         (WasmTranslator.new.get_or_allocate_register Register.rcx).2) ∧
    WasmTranslator.new.get_or_allocate_register Register.rdi = (0, WasmTranslator.new) ∧
    WasmTranslator.new.get_or_allocate_register Register.edi = (0, WasmTranslator.new) ∧
    (WasmTranslator.new.get_or_allocate_register Register.rax).1 ≠ 0 ∧
    (WasmTranslator.new.get_or_allocate_register Register.rax).1
      ≠ ((WasmTranslator.new.get_or_allocate_register Register.rax).2.get_or_allocate_register Register.rbx).1 ∧
    (RegisterAllocator.new.get_or_allocate Register.rcx).1 = 0 :=
  allocator_idempotent_distinct_slots RegisterAllocator.new WasmTranslator.new
    Register.rcx Register.rax Register.rbx (by decide) (by decide) (by decide)
    (by decide) (by decide) (by decide) (by decide)

/-- Claim C5: `get_or_allocate_flag` returns the single shared flag slot
(every call after the first returns the same index), and translating two
sequential `cmp reg, imm` instructions from a fresh allocator emits two
sequences that both store into that shared slot 0, so that executing
them leaves the flag slot holding exactly the second comparison's
result `wrap64(that register − imm₂)` — the first result is
overwritten. -/
theorem flag_slot_shared_and_overwritten (a : RegisterAllocator) (r1 r2 : Register)
    (n1 n2 : Nat) (l0 : Nat → Int) (h : r1 ≠ r2) :
    ((a.get_or_allocate_flag).2.get_or_allocate_flag).1 = (a.get_or_allocate_flag).1 ∧
    translate_instruction (cmpRegImm r1 n1) RegisterAllocator.new []
      = Except.ok ([WasmInstr.localGet 1, WasmInstr.i64Const (Int.ofNat n1),
                    WasmInstr.i64Sub, WasmInstr.localSet 0],
                   { reg_map := [(r1, 1)], next_local := 2, flag_reg := some 0 }) ∧
    translate_instruction (cmpRegImm r2 n2)
        { reg_map := [(r1, 1)], next_local := 2, flag_reg := some 0 } []
      = Except.ok ([WasmInstr.localGet 2, WasmInstr.i64Const (Int.ofNat n2),
                    WasmInstr.i64Sub, WasmInstr.localSet 0],
                   { reg_map := [(r2, 2), (r1, 1)], next_local := 3, flag_reg := some 0 }) ∧
    run ([WasmInstr.localGet 1, WasmInstr.i64Const (Int.ofNat n1), WasmInstr.i64Sub,
          WasmInstr.localSet 0] ++
         [WasmInstr.localGet 2, WasmInstr.i64Const (Int.ofNat n2), WasmInstr.i64Sub,
          WasmInstr.localSet 0])
        { locals := l0, stack := [], mem := fun _ => 0 }
      = some { locals := Function.update l0 0 (wrap64 (l0 2 - Int.ofNat n2)),
               stack := [], mem := fun _ => 0 } ∧
    Function.update l0 0 (wrap64 (l0 2 - Int.ofNat n2)) 0 = wrap64 (l0 2 - Int.ofNat n2) := by
  refine ⟨?_, rfl, ?_, ?_, Function.update_same _ _ _⟩
  · cases hf : a.flag_reg <;> simp [RegisterAllocator.get_or_allocate_flag, hf]
  · simp [translate_instruction, cmpRegImm, instr0, RegisterAllocator.get_or_allocate_flag,
      RegisterAllocator.get_or_allocate, lookupReg, h]
  · have h2 : (Function.update l0 0 (wrap64 (l0 1 - Int.ofNat n1))) 2 = l0 2 :=
      Function.update_noteq (by decide) _ _
    simp [run, step, h2, Function.update_idem]

/-- Witness for claim C5: two `cmp` instructions on `rax` and `rbx` with
immediates 5 and 7, run from locals all equal to 40 — the flag slot ends
at `wrap64 (40 − 7)`, the second comparison's result only. -/
theorem flag_slot_shared_and_overwritten_witness :
    ((RegisterAllocator.new.get_or_allocate_flag).2.get_or_allocate_flag).1
      = (RegisterAllocator.new.get_or_allocate_flag).1 ∧
    translate_instruction (cmpRegImm Register.rax 5) RegisterAllocator.new []
      = Except.ok ([WasmInstr.localGet 1, WasmInstr.i64Const (Int.ofNat 5),
                    WasmInstr.i64Sub, WasmInstr.localSet 0],
                   { reg_map := [(Register.rax, 1)], next_local := 2, flag_reg := some 0 }) ∧
    translate_instruction (cmpRegImm Register.rbx 7)
        { reg_map := [(Register.rax, 1)], next_local := 2, flag_reg := some 0 } []
      = Except.ok ([WasmInstr.localGet 2, WasmInstr.i64Const (Int.ofNat 7),
                    WasmInstr.i64Sub, WasmInstr.localSet 0],
                   { reg_map := [(Register.rbx, 2), (Register.rax, 1)],
                     next_local := 3, flag_reg := some 0 }) ∧
    run ([WasmInstr.localGet 1, WasmInstr.i64Const (Int.ofNat 5), WasmInstr.i64Sub,
          WasmInstr.localSet 0] ++
         [WasmInstr.localGet 2, WasmInstr.i64Const (Int.ofNat 7), WasmInstr.i64Sub,
          WasmInstr.localSet 0])
        { locals := fun _ => 40, stack := [], mem := fun _ => 0 }
      = some { locals := Function.update (fun _ => (40 : Int)) 0 (wrap64 (40 - Int.ofNat 7)),
               stack := [], mem := fun _ => 0 } ∧
    Function.update (fun _ => (40 : Int)) 0 (wrap64 (40 - Int.ofNat 7)) 0
      = wrap64 (40 - Int.ofNat 7) :=
  flag_slot_shared_and_overwritten RegisterAllocator.new Register.rax Register.rbx
    5 7 (fun _ => 40) (by decide)

/- ----------------------------------------------------------------
   Resolver lemmas and claim C7
   ---------------------------------------------------------------- -/

/-- Decidable statement that one section does not satisfy the resolver's
success condition: either it is not named ".text", or it has data whose
address range does not contain `[addr, addr + size)`. (A ".text" section
without data is not a miss: the loop errors out on it instead.) -/
def sectionMisses (addr size : Nat) (sec : ObjSection) : Bool :=
  if sec.name = some ".text" then
    match sec.data with
    | some d => !(decide (addr ≥ sec.addr ∧ addr + size ≤ sec.addr + d.length))
    | none => false
  else true

/-- The section loop never produces the size-unknown error string. -/
theorem findTextSection_ne_size_unknown (addr size : Nat) :
    ∀ secs : List ObjSection,
      findTextSection secs addr size ≠ Except.error "Function size unknown" := by
  intro secs
  induction secs with
  | nil =>
    intro h
    rw [findTextSection] at h
    exact absurd h (by decide)
  | cons sec rest ih =>
    by_cases hn : sec.name = some ".text"
    · cases hd : sec.data with
      | none =>
        intro h
        simp only [findTextSection, if_pos hn, hd] at h
        exact absurd h (by decide)
      | some d =>
        intro h
        simp only [findTextSection, if_pos hn, hd] at h
        by_cases hr : addr ≥ sec.addr ∧ addr + size ≤ sec.addr + d.length
        · rw [if_pos hr] at h; exact Except.noConfusion h
        · rw [if_neg hr] at h; exact ih h
    · intro h
      simp only [findTextSection, if_neg hn] at h
      exact ih h

/-- A successful section scan returns the symbol's address and exactly
`size` bytes. -/
theorem findTextSection_ok_shape (addr size : Nat) :
    ∀ (secs : List ObjSection) (bytes : List Nat) (a : Nat),
      findTextSection secs addr size = Except.ok (bytes, a) →
      a = addr ∧ bytes.length = size := by
  intro secs
  induction secs with
  | nil =>
    intro bytes a h
    rw [findTextSection] at h
    exact Except.noConfusion h
  | cons sec rest ih =>
    intro bytes a h
    by_cases hn : sec.name = some ".text"
    · cases hd : sec.data with
      | none =>
        simp only [findTextSection, if_pos hn, hd] at h
        exact Except.noConfusion h
      | some d =>
        simp only [findTextSection, if_pos hn, hd] at h
        by_cases hr : addr ≥ sec.addr ∧ addr + size ≤ sec.addr + d.length
        · rw [if_pos hr] at h
          injection h with h1
          injection h1 with hb ha
          refine ⟨ha.symm, ?_⟩
          rw [← hb, List.length_take, List.length_drop]
          omega
        · rw [if_neg hr] at h; exact ih bytes a h
    · simp only [findTextSection, if_neg hn] at h
      exact ih bytes a h

/-- If every section misses, the loop fails with the section-not-found
error. -/
theorem findTextSection_all_miss (addr size : Nat) :
    ∀ secs : List ObjSection,
      (∀ sec ∈ secs, sectionMisses addr size sec = true) →
      findTextSection secs addr size
        = Except.error "Function code not found in .text section" := by
  intro secs
  induction secs with
  | nil => intro _; rfl
  | cons sec rest ih =>
    intro hmiss
    have hsec := hmiss sec (List.mem_cons_self _ _)
    by_cases hn : sec.name = some ".text"
    · cases hd : sec.data with
      | none =>
        simp only [sectionMisses, if_pos hn, hd] at hsec
        exact absurd hsec (by decide)
      | some d =>
        simp only [sectionMisses, if_pos hn, hd, Bool.not_eq_true'] at hsec
        have hr : ¬(addr ≥ sec.addr ∧ addr + size ≤ sec.addr + d.length) :=
          of_decide_eq_false hsec
        simp only [findTextSection, if_pos hn, hd, if_neg hr]
        exact ih (fun s hs => hmiss s (List.mem_cons_of_mem _ hs))
    · simp only [findTextSection, if_neg hn]
      exact ih (fun s hs => hmiss s (List.mem_cons_of_mem _ hs))

/-- Object file with a code symbol recorded with size 0 (the container's
encoding of "no size metadata") covered by a ".text" section. -/
def resolverObjZeroSize : ObjFile :=
  { symbols := [{ name := some "f", kind := SymbolKind.text, addr := 16, size := 0 }]
    sections := [{ name := some ".text", addr := 0, data := some (List.replicate 32 0) }] }

/-- Object file whose only section contains the symbol's address range
but is named ".data", not ".text". -/
def resolverObjData : ObjFile :=
  { symbols := [{ name := some "g", kind := SymbolKind.text, addr := 100, size := 4 }]
    sections := [{ name := some ".data", addr := 96, data := some (List.replicate 16 0) }] }

/-- Claim C7 counterexample: (i) a symbol without size metadata (size
recorded as 0) does not fail with `SizeUnknown` — the resolver succeeds
and returns 0 bytes; (ii) a symbol whose address range is contained in a
section's range still fails with the section-not-found error when that
section is not named ".text", though the claim requires `SectionNotFound`
only when no section's range contains the symbol. -/
theorem resolver_claim_counterexample :
    findSymbol resolverObjZeroSize.symbols "f"
      = some { name := some "f", kind := SymbolKind.text, addr := 16, size := 0 } ∧
    extract_function_code resolverObjZeroSize "f" = Except.ok ([], 16) ∧
    findSymbol resolverObjData.symbols "g"
      = some { name := some "g", kind := SymbolKind.text, addr := 100, size := 4 } ∧
    (100 ≥ 96 ∧ 100 + 4 ≤ 96 + 16) ∧
    resolverObjData.sections
      = [{ name := some ".data", addr := 96, data := some (List.replicate 16 0) }] ∧
    extract_function_code resolverObjData "g"
      = Except.error "Function code not found in .text section" := by
  decide

/-- Claim C7 (amended): the resolver fails with the symbol-not-found
error when no exact-name code-kind symbol exists; the size-unknown error
is unreachable (a symbol without size metadata reports size 0 and yields
an empty slice); it fails with the section-not-found error when no
section named ".text" with data contains the symbol's range; and on
success it returns exactly `size` bytes located at the symbol's address.
It is a pure function of the parsed object file. -/
theorem extract_function_code_characterized (obj : ObjFile) (fn_name : String) :
    (findSymbol obj.symbols fn_name = none →
       extract_function_code obj fn_name = Except.error "Function not found") ∧
    extract_function_code obj fn_name ≠ Except.error "Function size unknown" ∧
    (∀ (bytes : List Nat) (a : Nat),
       extract_function_code obj fn_name = Except.ok (bytes, a) →
       ∃ sym, findSymbol obj.symbols fn_name = some sym ∧
         a = sym.addr ∧ bytes.length = sym.size) ∧
    (∀ sym, findSymbol obj.symbols fn_name = some sym →
       (∀ sec ∈ obj.sections, sectionMisses sym.addr sym.size sec = true) →
       extract_function_code obj fn_name
         = Except.error "Function code not found in .text section") := by
  refine ⟨?_, ?_, ?_, ?_⟩
  · intro h
    simp [extract_function_code, h]
  · cases hs : findSymbol obj.symbols fn_name with
    | none => simp [extract_function_code, hs]
    | some sym =>
      simp only [extract_function_code, hs, Option.map_some']
      exact findTextSection_ne_size_unknown _ _ _
  · intro bytes a h
    cases hs : findSymbol obj.symbols fn_name with
    | none => rw [extract_function_code] at h; simp [hs] at h
    | some sym =>
      refine ⟨sym, rfl, ?_⟩
      rw [extract_function_code] at h
      simp only [hs, Option.map_some'] at h
      exact findTextSection_ok_shape _ _ _ _ _ h
  · intro sym hs hmiss
    simp only [extract_function_code, hs, Option.map_some']
    exact findTextSection_all_miss _ _ _ hmiss

/-- Witness for the amended claim C7: on `resolverObjData`, an unknown
name fails with the symbol-not-found error and the known symbol (whose
only candidate section is not ".text") fails with the section-not-found
error. -/
theorem extract_function_code_characterized_witness :
    extract_function_code resolverObjData "missing"
      = Except.error "Function not found" ∧
    extract_function_code resolverObjData "g"
      = Except.error "Function code not found in .text section" :=
  ⟨(extract_function_code_characterized resolverObjData "missing").1 (by decide),
   (extract_function_code_characterized resolverObjData "g").2.2.2
     { name := some "g", kind := SymbolKind.text, addr := 100, size := 4 }
     (by decide) (by decide)⟩

/-- Claim C9: cache lookups are pure — two lookups for the same name on
the built transpiler return the same stored buffer; the analysis loop
invokes the translation pipeline exactly once per callback name (the
recorded invocation sequence is the callback list, which has no
duplicates); and a name outside that list was never cached, so its
lookup returns `none` by a plain map miss, without any pipeline call
(`get_wasm_for_function` is defined by cache lookup alone). -/
theorem cache_lookup_behavior (name : String) :
    Transpiler.get_wasm_for_function Transpiler.new name
      = Transpiler.get_wasm_for_function Transpiler.new name ∧
    Transpiler.analyze_binary.2 = callbacks ∧
    callbacks.Nodup ∧
    (name ∉ callbacks →
      Transpiler.get_wasm_for_function Transpiler.new name = none) := by
  refine ⟨rfl, by decide, by decide, ?_⟩
  intro h
  simp only [callbacks, List.mem_cons, List.not_mem_nil, or_false, not_or] at h
  obtain ⟨h1, h2, h3⟩ := h
  simp [Transpiler.get_wasm_for_function, Transpiler.new, Transpiler.analyze_binary,
    callbacks, Transpiler.transpile_function, lookupCache, List.foldl,
    Ne.symm h1, Ne.symm h2, Ne.symm h3]

/-- Witness for claim C9: the unknown name "unknown_fn" yields `none`,
and the pipeline-invocation record equals the three callback names. -/
theorem cache_lookup_behavior_witness :
    Transpiler.get_wasm_for_function Transpiler.new "unknown_fn" = none ∧
    Transpiler.analyze_binary.2 = callbacks ∧
    callbacks.Nodup :=
  ⟨(cache_lookup_behavior "unknown_fn").2.2.2 (by decide),
   (cache_lookup_behavior "unknown_fn").2.1,
   (cache_lookup_behavior "unknown_fn").2.2.1⟩

/-- Claim C10: after `Transpiler::new()` the cache lookup agrees exactly
with the fixed per-name generator match — `Some` precisely for the three
demo callback names, with the hand-constructed modules as values, and
`transpile_function` itself is that fixed match (it never touches the
decoding/translation pipeline). The `Transpiler` value is immutable
after `new`, so the cached name set never changes. -/
theorem cache_serves_fixed_generators (name : String) :
    Transpiler.get_wasm_for_function Transpiler.new name
      = Transpiler.transpile_function name ∧
    ((Transpiler.get_wasm_for_function Transpiler.new name).isSome = true ↔
      name ∈ callbacks) ∧
    Transpiler.transpile_function "increment_counter" = some generate_increment_wasm ∧
    Transpiler.transpile_function "decrement_counter" = some generate_decrement_wasm ∧
    Transpiler.transpile_function "reset_counter" = some generate_reset_wasm := by
  by_cases h1 : name = "increment_counter"
  · subst h1; exact ⟨by decide, by decide, by decide, by decide, by decide⟩
  by_cases h2 : name = "decrement_counter"
  · subst h2; exact ⟨by decide, by decide, by decide, by decide, by decide⟩
  by_cases h3 : name = "reset_counter"
  · subst h3; exact ⟨by decide, by decide, by decide, by decide, by decide⟩
  refine ⟨?_, ?_, by decide, by decide, by decide⟩
  · simp [Transpiler.get_wasm_for_function, Transpiler.new, Transpiler.analyze_binary,
      callbacks, Transpiler.transpile_function, lookupCache, List.foldl,
      Ne.symm h1, Ne.symm h2, Ne.symm h3, h1, h2, h3]
  · simp [Transpiler.get_wasm_for_function, Transpiler.new, Transpiler.analyze_binary,
      callbacks, Transpiler.transpile_function, lookupCache, List.foldl,
      Ne.symm h1, Ne.symm h2, Ne.symm h3, h1, h2, h3]

end SelfServe
